import Mathlib

/-!
Verification development for `tensorflow/compiler/jit/get_compiler_ir.cc`.

The translation unit is shallowly embedded: protobuf messages become plain
structures, `StatusOr<T>` becomes `Except TfError T`, and the calls into
collaborating components that live outside this translation unit (function
resolution, variable lookup/locking, the XLA client) are represented by an
environment of oracles.  Side effects that the file's contracts talk about
(copying an input to host storage, acquiring or releasing a variable lock,
invoking the compiler or the executable builder) are recorded in an explicit
event trace.
-/

set_option maxRecDepth 4000

namespace TF

instance {ε α : Type} [DecidableEq ε] [DecidableEq α] : DecidableEq (Except ε α)
  | .error a, .error b =>
    if h : a = b then isTrue (by rw [h]) else isFalse (by intro c; cases c; exact h rfl)
  | .error _, .ok _ => isFalse (by intro c; cases c)
  | .ok _, .error _ => isFalse (by intro c; cases c)
  | .ok a, .ok b =>
    if h : a = b then isTrue (by rw [h]) else isFalse (by intro c; cases c; exact h rfl)

/-! ### Status model

`Status`/`StatusOr` carry an error code and a message.  Only the codes used by
this translation unit are modelled.  `TF_RET_CHECK` (from
`xla/status_macros.h`) produces an INTERNAL-code status. -/

inductive ErrorKind
  | invalidArgument
  | internal
  | notFound
  | unknown
deriving DecidableEq, Repr

structure TfError where
  kind : ErrorKind
  msg : String
deriving DecidableEq, Repr

def invalidArgumentError (m : String) : TfError := ⟨.invalidArgument, m⟩

/-- Modelled from the spec: the `TF_RET_CHECK` macro comes from
`xla/status_macros.h`, which is not among the sources.  The spec fixes its
status kind at the executable-count check — "Fails with `Internal` if the
compiler returns a number of executables other than exactly one" (§4.8) — so
a failed `TF_RET_CHECK` carries the INTERNAL kind. -/
def tfRetCheckError (m : String) : TfError := ⟨.internal, m⟩

/-! ### Shapes and function-definition protos -/

structure TensorShapeProto where
  dim : List Int
deriving DecidableEq, Repr

structure TensorShape where
  dims : List Int
deriving DecidableEq, Repr

instance : Inhabited TensorShape := ⟨⟨[]⟩⟩

/-- `TensorShape::BuildTensorShape`: validates the proto (a fully defined
`TensorShape` has only nonnegative dimensions) and on success writes the shape
with those dimensions into the output parameter. -/
def BuildTensorShape (p : TensorShapeProto) : Except TfError TensorShape :=
  if p.dim.all (fun d => 0 ≤ d) then .ok ⟨p.dim⟩
  else .error (invalidArgumentError "BuildTensorShape: invalid shape proto")

abbrev DataType := Nat

/-- One entry of `OpDef.input_arg`. -/
structure ArgDef where
  type : DataType
  name : String
deriving DecidableEq, Repr

instance : Inhabited ArgDef := ⟨⟨0, ""⟩⟩

/-- The part of an `AttrValue` this file reads: `attr_value.list().shape()`. -/
structure AttrValue where
  listShape : List TensorShapeProto
deriving DecidableEq, Repr

/-- `FunctionDef.ArgAttrs`: the per-argument attribute map (association list;
protobuf map iteration order is unspecified, so no order is assumed). -/
structure ArgAttrs where
  attr : List (String × AttrValue)
deriving DecidableEq, Repr

structure OpDef where
  inputArg : List ArgDef
deriving DecidableEq, Repr

/-- The slice of `FunctionDef` read here: `signature().input_arg()` and
`arg_attr()` (a protobuf map from argument index to `ArgAttrs`). -/
structure FunctionDef where
  signature : OpDef
  argAttr : List (Nat × ArgAttrs)
deriving DecidableEq, Repr

structure FunctionBody where
  fdef : FunctionDef
deriving DecidableEq, Repr

/-! ### XlaCompiler::Argument -/

inductive ArgKind
  | kInvalid
  | kConstant
  | kResource
  | kParameter
deriving DecidableEq, Repr

structure XlaArgument where
  kind : ArgKind
  type : DataType
  shape : TensorShape
  name : String
deriving DecidableEq, Repr

instance : Inhabited XlaArgument := ⟨⟨.kInvalid, 0, default, ""⟩⟩

/-! ### The local `std::vector<TensorShape> shapes`

The source reserves capacity (`shapes.reserve(input_arg_size)`) and then
accesses elements through `operator[]`.  The model keeps both the vector's
size and its allocated storage: an access through `operator[]` yields the
in-practice value held in the allocated buffer, together with a boolean
recording whether the index was below the vector's size — the condition C++
requires for the access to be within bounds. -/

structure ShapesVec where
  size : Nat
  storage : List TensorShape
deriving DecidableEq, Repr

def ShapesVec.writeAt (v : ShapesVec) (i : Nat) (s : TensorShape) : ShapesVec × Bool :=
  ({ v with storage := v.storage.set i s }, decide (i < v.size))

def ShapesVec.readAt (v : ShapesVec) (i : Nat) : TensorShape × Bool :=
  (v.storage.getD i default, decide (i < v.size))

/-! ### `BuildXlaCompilerArgumentFromFuncBody` (lines 136–176)

The inner loop walks one argument's attribute map looking for
`"_output_shapes"`; for each hit it reads element 0 of the attribute's shape
list and parses it into `shapes[idx]`.  `TF_RET_CHECK(has_function_input_shape)`
fails with an INTERNAL status when an argument's attribute entry carries no
`"_output_shapes"` annotation.  Every `operator[]` access on `shapes` and the
element-0 read of the shape list contribute to the accumulated in-bounds flag. -/

def processOneArgAttr (idx : Nat) :
    List (String × AttrValue) → ShapesVec → Bool → Bool →
    Except TfError (ShapesVec × Bool) × Bool
  | [], v, ok, hasShape => (.ok (v, hasShape), ok)
  | (nm, av) :: rest, v, ok, hasShape =>
    if nm = "_output_shapes" then
      match BuildTensorShape (av.listShape.headD ⟨[]⟩) with
      | .error e => (.error e, ok && decide (0 < av.listShape.length))
      | .ok s =>
        processOneArgAttr idx rest (v.writeAt idx s).1
          ((ok && decide (0 < av.listShape.length)) && (v.writeAt idx s).2) true
    else
      processOneArgAttr idx rest v ok hasShape

def retCheckHasShapeError : TfError :=
  tfRetCheckError "RET_CHECK failure: has_function_input_shape"

def processArgAttrs :
    List (Nat × ArgAttrs) → ShapesVec → Bool →
    Except TfError ShapesVec × Bool
  | [], v, ok => (.ok v, ok)
  | (idx, a) :: rest, v, ok =>
    match (processOneArgAttr idx a.attr v ok false).1 with
    | .error e => (.error e, (processOneArgAttr idx a.attr v ok false).2)
    | .ok (v1, hasShape) =>
      if hasShape then processArgAttrs rest v1 (processOneArgAttr idx a.attr v ok false).2
      else (.error retCheckHasShapeError, (processOneArgAttr idx a.attr v ok false).2)

/-- The final loop (lines 166–174): `args.resize(input_arg_size)` and one
`XlaCompiler::Argument` per input, reading `shapes[input_num]`. -/
def buildArgsFrom (v : ShapesVec) : Nat → List ArgDef → List XlaArgument × Bool
  | _, [] => ([], true)
  | i, a :: rest =>
    ({ kind := .kParameter, type := a.type, shape := (v.readAt i).1, name := a.name } ::
       (buildArgsFrom v (i + 1) rest).1,
     (v.readAt i).2 && (buildArgsFrom v (i + 1) rest).2)

structure BuilderOutcome where
  result : Except TfError (List XlaArgument)
  accessesInBounds : Bool
deriving DecidableEq, Repr

def arityMismatchError : TfError :=
  invalidArgumentError
    "The function to be lowered uses some tf.Variable defined outside the function body. This is not supported with using tensor spec. Please modify the function with pure functional style."

/-- The vector after `shapes.reserve(input_arg_size)`: size 0, allocated
storage for `input_arg_size` elements. -/
def reservedShapes (n : Nat) : ShapesVec :=
  { size := 0, storage := List.replicate n default }

def BuildXlaCompilerArgumentFromFuncBody (fbody : FunctionBody) : BuilderOutcome :=
  if fbody.fdef.argAttr.length ≠ fbody.fdef.signature.inputArg.length then
    { result := .error arityMismatchError, accessesInBounds := true }
  else
    match (processArgAttrs fbody.fdef.argAttr
            (reservedShapes fbody.fdef.signature.inputArg.length) true).1 with
    | .error e =>
      { result := .error e,
        accessesInBounds :=
          (processArgAttrs fbody.fdef.argAttr
            (reservedShapes fbody.fdef.signature.inputArg.length) true).2 }
    | .ok v =>
      { result := .ok (buildArgsFrom v 0 fbody.fdef.signature.inputArg).1,
        accessesInBounds :=
          (processArgAttrs fbody.fdef.argAttr
            (reservedShapes fbody.fdef.signature.inputArg.length) true).2 &&
          (buildArgsFrom v 0 fbody.fdef.signature.inputArg).2 }

/-! ### Analysis helpers for the spec-mode builder -/

def errorKindOf {α : Type} : Except TfError α → Option ErrorKind
  | .error e => some e.kind
  | .ok _ => none

/-- The `"_output_shapes"` entries of one argument's attribute map. -/
def outputShapesOf (a : ArgAttrs) : List (String × AttrValue) :=
  a.attr.filter (fun q => decide (q.1 = "_output_shapes"))

/-- A shape annotation the source can consume: a nonempty shape list whose
element 0 is a valid fully-defined shape proto. -/
def goodAttrValue (av : AttrValue) : Bool :=
  decide (0 < av.listShape.length) &&
    (av.listShape.headD ⟨[]⟩).dim.all (fun d => 0 ≤ d)

/-- The argument carries exactly one consumable `"_output_shapes"` annotation
(protobuf attribute maps have unique keys). -/
def goodArgAttrs (a : ArgAttrs) : Bool :=
  match outputShapesOf a with
  | [(_, av)] => goodAttrValue av
  | _ => false

/-- The shape declared by an argument's (unique) `"_output_shapes"` annotation. -/
def entryShape (a : ArgAttrs) : TensorShape :=
  ⟨(((outputShapesOf a).headD ("", ⟨[]⟩)).2.listShape.headD ⟨[]⟩).dim⟩

/-- The net effect of the parsing loop on the vector's storage: each attribute
entry writes its parsed shape at its argument index. -/
def applyEntryWrites (L : List (Nat × ArgAttrs)) (st : List TensorShape) :
    List TensorShape :=
  L.foldl (fun s p => s.set p.1 (entryShape p.2)) st

/-- Reference descriptor following the spec's words: for input `i`, kind
Parameter, type and name from the signature's input argument at index `i`,
shape from that argument's declared shape annotation. -/
def specDeclaredShape (argAttrs : List (Nat × ArgAttrs)) (i : Nat) : TensorShape :=
  match argAttrs.find? (fun p => decide (p.1 = i)) with
  | some p => entryShape p.2
  | none => default

def specDescriptor (inputArgs : List ArgDef) (argAttrs : List (Nat × ArgAttrs))
    (i : Nat) : XlaArgument :=
  { kind := .kParameter,
    type := (inputArgs.getD i default).type,
    shape := specDeclaredShape argAttrs i,
    name := (inputArgs.getD i default).name }

/-! ### List helper lemmas -/

theorem getD_set_self {α : Type} (l : List α) (i : Nat) (x d : α)
    (h : i < l.length) : (l.set i x).getD i d = x := by
  induction l generalizing i with
  | nil => simp at h
  | cons b t ih =>
    cases i with
    | zero => rfl
    | succ j =>
      simp only [List.set, List.getD_cons_succ]
      exact ih j (by simpa using h)

theorem getD_set_ne {α : Type} (l : List α) (i j : Nat) (x d : α)
    (h : i ≠ j) : (l.set i x).getD j d = l.getD j d := by
  induction l generalizing i j with
  | nil => rfl
  | cons b t ih =>
    cases i with
    | zero =>
      cases j with
      | zero => exact absurd rfl h
      | succ k => rfl
    | succ m =>
      cases j with
      | zero => rfl
      | succ k =>
        simp only [List.set, List.getD_cons_succ]
        exact ih m k (by omega)

theorem applyEntryWrites_cons (p : Nat × ArgAttrs) (t : List (Nat × ArgAttrs))
    (st : List TensorShape) :
    applyEntryWrites (p :: t) st = applyEntryWrites t (st.set p.1 (entryShape p.2)) := rfl

theorem applyEntryWrites_length (L : List (Nat × ArgAttrs)) (st : List TensorShape) :
    (applyEntryWrites L st).length = st.length := by
  induction L generalizing st with
  | nil => rfl
  | cons p t ih =>
    rw [applyEntryWrites_cons, ih]
    exact List.length_set st p.1 (entryShape p.2)

theorem applyEntryWrites_getD_notMem (L : List (Nat × ArgAttrs))
    (st : List TensorShape) (j : Nat) (d : TensorShape)
    (h : j ∉ L.map Prod.fst) :
    (applyEntryWrites L st).getD j d = st.getD j d := by
  induction L generalizing st with
  | nil => rfl
  | cons p t ih =>
    simp only [List.map_cons, List.mem_cons, not_or] at h
    rw [applyEntryWrites_cons, ih _ h.2]
    exact getD_set_ne st p.1 j _ d (fun hc => h.1 hc.symm)

theorem applyEntryWrites_getD_mem (L : List (Nat × ArgAttrs))
    (st : List TensorShape) (j : Nat) (a : ArgAttrs) (d : TensorShape)
    (hnd : (L.map Prod.fst).Nodup) (hmem : (j, a) ∈ L) (hj : j < st.length) :
    (applyEntryWrites L st).getD j d = entryShape a := by
  induction L generalizing st with
  | nil => cases hmem
  | cons p t ih =>
    simp only [List.map_cons, List.nodup_cons] at hnd
    rcases List.mem_cons.mp hmem with heq | htail
    · subst heq
      rw [applyEntryWrites_cons]
      have hnot : j ∉ t.map Prod.fst := by simpa using hnd.1
      rw [applyEntryWrites_getD_notMem t _ j d hnot]
      exact getD_set_self st j _ d hj
    · rw [applyEntryWrites_cons]
      exact ih _ hnd.2 htail (by simpa using hj)

theorem find?_eq_of_mem_nodup {β : Type} (L : List (Nat × β)) (j : Nat) (a : β)
    (hnd : (L.map Prod.fst).Nodup) (hmem : (j, a) ∈ L) :
    L.find? (fun p => decide (p.1 = j)) = some (j, a) := by
  induction L with
  | nil => cases hmem
  | cons p t ih =>
    simp only [List.map_cons, List.nodup_cons] at hnd
    rcases List.mem_cons.mp hmem with heq | htail
    · subst heq
      simp [List.find?]
    · have hne : p.1 ≠ j := by
        intro hc
        exact hnd.1 (hc ▸ List.mem_map_of_mem Prod.fst htail)
      rw [List.find?]
      simp only [hne, decide_eq_true_eq, if_neg]
      simpa [hne] using ih hnd.2 htail

/-! ### Behaviour of the attribute-processing loops -/

theorem goodArgAttrs_spec (a : ArgAttrs) (h : goodArgAttrs a = true) :
    ∃ av, outputShapesOf a = [("_output_shapes", av)] ∧ goodAttrValue av = true := by
  unfold goodArgAttrs at h
  cases hs : outputShapesOf a with
  | nil => rw [hs] at h; cases h
  | cons x xs =>
    cases xs with
    | nil =>
      obtain ⟨nm, av⟩ := x
      have hx : (nm, av) ∈ outputShapesOf a := by
        rw [hs]; exact List.mem_singleton_self _
      have hnm : nm = "_output_shapes" := by
        have := (List.mem_filter.mp hx).2
        simpa using this
      rw [hs] at h
      exact ⟨av, by rw [hnm], by simpa using h⟩
    | cons y ys => rw [hs] at h; cases h

theorem processOneArgAttr_noShape (idx : Nat) (entries : List (String × AttrValue))
    (v : ShapesVec) (ok hs : Bool)
    (h : entries.filter (fun q => decide (q.1 = "_output_shapes")) = []) :
    processOneArgAttr idx entries v ok hs = (.ok (v, hs), ok) := by
  induction entries generalizing v ok hs with
  | nil => rfl
  | cons q t ih =>
    obtain ⟨nm, av⟩ := q
    rw [List.filter_cons] at h
    by_cases hnm : nm = "_output_shapes"
    · simp [hnm] at h
    · simp only [processOneArgAttr, if_neg hnm]
      exact ih v ok hs (by simpa [hnm] using h)

theorem processOneArgAttr_good (idx : Nat) (entries : List (String × AttrValue))
    (v : ShapesVec) (ok hs : Bool) (av : AttrValue)
    (h : entries.filter (fun q => decide (q.1 = "_output_shapes")) =
          [("_output_shapes", av)])
    (hgood : goodAttrValue av = true) :
    (processOneArgAttr idx entries v ok hs).1 =
      .ok ((v.writeAt idx ⟨(av.listShape.headD ⟨[]⟩).dim⟩).1, true) := by
  induction entries generalizing v ok hs with
  | nil => simp at h
  | cons q t ih =>
    obtain ⟨nm, bv⟩ := q
    rw [List.filter_cons] at h
    by_cases hnm : nm = "_output_shapes"
    · subst hnm
      simp only [List.cons.injEq, Prod.mk.injEq, decide_eq_true_eq, if_pos, true_and] at h
      obtain ⟨hbv, ht⟩ := h
      subst hbv
      have hvalid : (bv.listShape.headD ⟨[]⟩).dim.all (fun d => 0 ≤ d) = true := by
        unfold goodAttrValue at hgood
        exact (Bool.and_eq_true _ _).mp hgood |>.2
      have hbt : BuildTensorShape (bv.listShape.headD ⟨[]⟩) =
          .ok ⟨(bv.listShape.headD ⟨[]⟩).dim⟩ := by
        unfold BuildTensorShape
        rw [if_pos hvalid]
      simp only [processOneArgAttr, hbt]
      rw [processOneArgAttr_noShape idx t _ _ true ht]
      simp
    · simp only [processOneArgAttr, if_neg hnm]
      exact ih v ok hs (by simpa [hnm] using h)

theorem processArgAttrs_allGood (L : List (Nat × ArgAttrs)) (v : ShapesVec)
    (ok : Bool) (h : ∀ p ∈ L, goodArgAttrs p.2 = true) :
    (processArgAttrs L v ok).1 = .ok ⟨v.size, applyEntryWrites L v.storage⟩ := by
  induction L generalizing v ok with
  | nil => rfl
  | cons p t ih =>
    obtain ⟨idx, a⟩ := p
    obtain ⟨av, hfil, hg⟩ := goodArgAttrs_spec a (h _ (List.mem_cons_self _ _))
    have hfil' : a.attr.filter (fun q => decide (q.1 = "_output_shapes")) =
        [("_output_shapes", av)] := hfil
    simp only [processArgAttrs, processOneArgAttr_good idx a.attr v ok false av hfil' hg,
      if_pos]
    rw [ih _ _ (fun q hq => h q (List.mem_cons_of_mem _ hq))]
    have hshape : entryShape a = ⟨(av.listShape.headD ⟨[]⟩).dim⟩ := by
      unfold entryShape
      rw [hfil]
      rfl
    rw [applyEntryWrites_cons]
    simp only [ShapesVec.writeAt, hshape]

theorem processArgAttrs_missing (L : List (Nat × ArgAttrs)) (v : ShapesVec)
    (ok : Bool)
    (hall : ∀ p ∈ L, goodArgAttrs p.2 = true ∨ outputShapesOf p.2 = [])
    (hex : ∃ p ∈ L, outputShapesOf p.2 = []) :
    (processArgAttrs L v ok).1 = .error retCheckHasShapeError := by
  induction L generalizing v ok with
  | nil => obtain ⟨p, hp, _⟩ := hex; cases hp
  | cons p t ih =>
    obtain ⟨idx, a⟩ := p
    rcases hall _ (List.mem_cons_self _ _) with hgood | hmiss
    · obtain ⟨av, hfil, hg⟩ := goodArgAttrs_spec a hgood
      have hfil' : a.attr.filter (fun q => decide (q.1 = "_output_shapes")) =
          [("_output_shapes", av)] := hfil
      simp only [processArgAttrs,
        processOneArgAttr_good idx a.attr v ok false av hfil' hg, if_pos]
      refine ih _ _ (fun q hq => hall q (List.mem_cons_of_mem _ hq)) ?_
      obtain ⟨q, hq, hqm⟩ := hex
      rcases List.mem_cons.mp hq with heq | htail
      · exfalso
        rw [heq] at hqm
        simp only at hqm
        rw [hqm] at hfil
        cases hfil
      · exact ⟨q, htail, hqm⟩
    · have hmiss' : a.attr.filter (fun q => decide (q.1 = "_output_shapes")) = [] := hmiss
      simp only [processArgAttrs,
        processOneArgAttr_noShape idx a.attr v ok false hmiss']
      simp

theorem buildArgsFrom_fst_length (v : ShapesVec) (L : List ArgDef) (i : Nat) :
    ((buildArgsFrom v i L).1).length = L.length := by
  induction L generalizing i with
  | nil => rfl
  | cons a t ih => simp only [buildArgsFrom, List.length_cons, ih]

theorem buildArgsFrom_fst_getD (v : ShapesVec) (L : List ArgDef) (i j : Nat)
    (h : j < L.length) :
    ((buildArgsFrom v i L).1).getD j default =
      { kind := .kParameter, type := (L.getD j default).type,
        shape := v.storage.getD (i + j) default,
        name := (L.getD j default).name } := by
  induction L generalizing i j with
  | nil => simp at h
  | cons a t ih =>
    cases j with
    | zero => rfl
    | succ k =>
      simp only [buildArgsFrom, List.getD_cons_succ]
      rw [ih (i + 1) k (by simpa using h)]
      have : i + (k + 1) = i + 1 + k := by omega
      rw [this]

/-! ### Claims C1–C3: the spec-mode builder -/

/-- C1: for every function whose per-argument shape annotations pass the arity
check — the annotation count equals the function arity and each argument is
annotated (with a well-formed shape annotation) — the spec-mode builder
returns a descriptor sequence with one descriptor per input: kind Parameter,
type and name taken from the signature's input argument at the same index,
and shape equal to that argument's declared shape annotation. -/
theorem spec_mode_builder_returns_declared_descriptors (fbody : FunctionBody)
    (hlen : fbody.fdef.argAttr.length = fbody.fdef.signature.inputArg.length)
    (hnd : (fbody.fdef.argAttr.map Prod.fst).Nodup)
    (hcover : ∀ i, i < fbody.fdef.signature.inputArg.length →
      i ∈ fbody.fdef.argAttr.map Prod.fst)
    (hgood : ∀ p ∈ fbody.fdef.argAttr, goodArgAttrs p.2 = true) :
    (BuildXlaCompilerArgumentFromFuncBody fbody).result =
      .ok ((List.range fbody.fdef.signature.inputArg.length).map
            (specDescriptor fbody.fdef.signature.inputArg fbody.fdef.argAttr)) := by
  unfold BuildXlaCompilerArgumentFromFuncBody
  rw [if_neg (fun hc => hc hlen)]
  simp only [processArgAttrs_allGood _ _ _ hgood]
  refine congrArg Except.ok ?_
  apply List.ext_getElem
  · rw [buildArgsFrom_fst_length]
    simp
  · intro i h1 h2
    have hi : i < fbody.fdef.signature.inputArg.length := by
      rw [buildArgsFrom_fst_length] at h1
      exact h1
    obtain ⟨q, hq, hqi⟩ := List.mem_map.mp (hcover i hi)
    obtain ⟨p1, a⟩ := q
    have hpi : p1 = i := hqi
    subst hpi
    rw [List.getElem_map, List.getElem_range,
      ← List.getD_eq_getElem _ default h1,
      buildArgsFrom_fst_getD _ _ 0 p1 hi]
    have hstor :
        (applyEntryWrites fbody.fdef.argAttr
          (reservedShapes fbody.fdef.signature.inputArg.length).storage).getD
            (0 + p1) default = entryShape a := by
      have : (0 : Nat) + p1 = p1 := Nat.zero_add p1
      rw [this]
      apply applyEntryWrites_getD_mem _ _ _ _ _ hnd hq
      simpa [reservedShapes] using hi
    have hspec : specDeclaredShape fbody.fdef.argAttr p1 = entryShape a := by
      unfold specDeclaredShape
      rw [find?_eq_of_mem_nodup _ _ _ hnd hq]
    unfold specDescriptor
    rw [hstor, hspec]

def cfbSpecMode : FunctionBody :=
  { fdef := { signature := { inputArg := [⟨1, "x"⟩, ⟨2, "y"⟩] },
              argAttr :=
                [(1, ⟨[("_output_shapes", ⟨[⟨[3]⟩]⟩)]⟩),
                 (0, ⟨[("foo", ⟨[]⟩), ("_output_shapes", ⟨[⟨[2, 2]⟩]⟩)]⟩)] } }

theorem spec_mode_builder_returns_declared_descriptors_witness :
    (BuildXlaCompilerArgumentFromFuncBody cfbSpecMode).result =
      .ok [{ kind := .kParameter, type := 1, shape := ⟨[2, 2]⟩, name := "x" },
           { kind := .kParameter, type := 2, shape := ⟨[3]⟩, name := "y" }] := by
  have h := spec_mode_builder_returns_declared_descriptors cfbSpecMode
    (by decide) (by decide) (by decide) (by decide)
  exact h.trans (by decide)

/-- C2 counterexample: a one-argument function whose single per-argument
attribute entry carries no `"_output_shapes"` annotation.  The arity check
passes, and the builder fails through `TF_RET_CHECK`, whose status kind is
Internal — not InvalidArgument as the claim states. -/
def cfbMissingShape : FunctionBody :=
  { fdef := { signature := { inputArg := [⟨1, "x"⟩] }, argAttr := [(0, ⟨[]⟩)] } }

theorem spec_mode_missing_annotation_internal_not_invalid_argument :
    errorKindOf (BuildXlaCompilerArgumentFromFuncBody cfbMissingShape).result =
        some .internal ∧
    errorKindOf (BuildXlaCompilerArgumentFromFuncBody cfbMissingShape).result ≠
        some .invalidArgument := by
  decide

/-- C2 (amended): if the annotation count differs from the function arity, the
spec-mode builder fails with InvalidArgument; if the count matches but some
argument's attribute entry lacks a shape annotation (the other entries being
well-formed), it fails with Internal (via `TF_RET_CHECK`). -/
theorem spec_mode_incomplete_metadata_error_kinds :
    (∀ fbody : FunctionBody,
        fbody.fdef.argAttr.length ≠ fbody.fdef.signature.inputArg.length →
        errorKindOf (BuildXlaCompilerArgumentFromFuncBody fbody).result =
          some .invalidArgument) ∧
    (∀ fbody : FunctionBody,
        fbody.fdef.argAttr.length = fbody.fdef.signature.inputArg.length →
        (∀ p ∈ fbody.fdef.argAttr,
            goodArgAttrs p.2 = true ∨ outputShapesOf p.2 = []) →
        (∃ p ∈ fbody.fdef.argAttr, outputShapesOf p.2 = []) →
        errorKindOf (BuildXlaCompilerArgumentFromFuncBody fbody).result =
          some .internal) := by
  constructor
  · intro fbody h
    unfold BuildXlaCompilerArgumentFromFuncBody
    rw [if_pos h]
    rfl
  · intro fbody hlen hall hex
    unfold BuildXlaCompilerArgumentFromFuncBody
    rw [if_neg (fun hc => hc hlen)]
    simp only [processArgAttrs_missing _ _ _ hall hex]
    rfl

theorem spec_mode_incomplete_metadata_error_kinds_witness :
    errorKindOf (BuildXlaCompilerArgumentFromFuncBody
        { fdef := { signature := { inputArg := [⟨1, "x"⟩] }, argAttr := [] } }).result =
      some .invalidArgument ∧
    errorKindOf (BuildXlaCompilerArgumentFromFuncBody cfbMissingShape).result =
      some .internal := by
  constructor
  · exact spec_mode_incomplete_metadata_error_kinds.1 _ (by decide)
  · exact spec_mode_incomplete_metadata_error_kinds.2 cfbMissingShape (by decide)
      (by decide) ⟨(0, ⟨[]⟩), by decide, by decide⟩

/-- C3: the claim states that all accesses to the locally built `shapes`
sequence stay within the sequence's current length.  The source calls
`shapes.reserve(input_arg_size)` — which leaves the vector's size at 0 — and
then writes and reads through `operator[]`.  At this one-argument function
(which passes the arity check and carries a well-formed annotation), the
builder performs its indexed write at index 0 and its indexed read at index 0
while the sequence's length is 0: the accesses are out of bounds. -/
def cfbReserveBug : FunctionBody :=
  { fdef := { signature := { inputArg := [⟨1, "x"⟩] },
              argAttr := [(0, ⟨[("_output_shapes", ⟨[⟨[2, 2]⟩]⟩)]⟩)] } }

theorem spec_mode_shapes_accesses_out_of_bounds :
    cfbReserveBug.fdef.argAttr.length = cfbReserveBug.fdef.signature.inputArg.length ∧
    (∀ p ∈ cfbReserveBug.fdef.argAttr, goodArgAttrs p.2 = true) ∧
    (BuildXlaCompilerArgumentFromFuncBody cfbReserveBug).accessesInBounds = false := by
  decide

/-! ### Export stages, devices, tensors, events -/

inductive IrExportStage
  | HLO
  | HLO_NO_METADATA
  | HLO_SERIALIZED
  | OPTIMIZED_HLO
  | OPTIMIZED_HLO_SERIALIZED
  | OPTIMIZED_HLO_PROTO_SERIALIZED
  | OPTIMIZED_HLO_DOT
deriving DecidableEq, Repr

def DEVICE_CPU : String := "CPU"

def DEVICE_TPU : String := "TPU"

/-- `DeviceBase::AcceleratorDeviceInfo`; the only field this file reads is the
stream pointer (modelled as `Option Unit`: `none` is a null stream). -/
structure AcceleratorDeviceInfo where
  stream : Option Unit
deriving DecidableEq, Repr

/-- The slice of `Device` this file reads: the device-type string and the
(possibly null) accelerator device info pointer. -/
structure Device where
  deviceType : String
  acceleratorDeviceInfo : Option AcceleratorDeviceInfo
deriving DecidableEq, Repr

structure Tensor where
  dtype : DataType
  shape : TensorShape
deriving DecidableEq, Repr

instance : Inhabited Tensor := ⟨⟨0, default⟩⟩

/-- `TensorHandle`: `th->Tensor(&t)` may fail. -/
structure TensorHandle where
  tensor : Except TfError Tensor
deriving DecidableEq, Repr

instance : Inhabited TensorHandle := ⟨⟨.error ⟨.unknown, "uninitialized"⟩⟩⟩

/-- Observable side effects of one `GetCompilerIr` call. -/
inductive Event
  | copyToHost (inputIndex : Nat)
  | lockVar (index : Nat)
  | unlockVar (index : Nat)
  | compile (args : List XlaArgument)
  | buildExecutable (embedIr : Bool)
deriving DecidableEq, Repr

/-! ### XLA client-side structures -/

abbrev XlaShape := Nat

structure CollectiveInfo where
  groupSize : Nat
deriving DecidableEq, Repr

structure XlaCompilerOptions where
  deviceOrdinal : Int
  deviceAllocator : Option Nat
  aliasPassthroughParams : Bool
  detailedLogging : Bool
deriving DecidableEq, Repr

structure DebugOptions where
  xlaDetailedLoggingAndDumping : Bool
  xlaEmbedIrInExecutable : Bool
deriving DecidableEq, Repr

structure ExecutableBuildOptions where
  numReplicas : Option Nat
  deviceOrdinal : Int
  resultLayout : XlaShape
  deviceAllocator : Option Nat
  aliasPassthroughParams : Bool
  debugOptions : DebugOptions
deriving DecidableEq, Repr

/-- The observable faces of a built `xla::LocalExecutable`: the optimized
module's text and serialized proto, the embedded HLO proto (program plus
buffer assignment), and the outcome of rendering its entry computation as a
DOT graph. -/
structure Executable where
  moduleText : String
  moduleProtoSerialized : String
  hloProtoSerialized : String
  renderEntryDot : Except TfError String
deriving Repr

structure LocalClient where
  defaultDeviceOrdinal : Int
  compile : List XlaShape → ExecutableBuildOptions → Except TfError (List Executable)

structure ProgramShape where
  uid : Nat
deriving DecidableEq, Repr

/-- An `xla::HloModule` reconstructed from the computation proto: its
`ToString` rendering with and without per-instruction metadata, and its
serialized proto form. -/
structure HloModule where
  text : String
  textNoMetadata : String
  protoSerialized : String
deriving DecidableEq, Repr

structure HloPrintOptions where
  printMetadata : Bool
deriving DecidableEq, Repr

def defaultHloPrintOptions : HloPrintOptions := { printMetadata := true }

def HloModule.render (m : HloModule) (opts : HloPrintOptions) : String :=
  if opts.printMetadata then m.text else m.textNoMetadata

/-- The slice of `xla::XlaComputation` used here: `GetProgramShape()` and
`HloModule::CreateFromProto(proto, config)` (the config is built from the
program shape). -/
structure XlaComputation where
  getProgramShape : Except TfError ProgramShape
  createFromProto : ProgramShape → Except TfError HloModule

structure CompilationResult where
  computation : XlaComputation
  xlaInputShapes : List XlaShape
  xlaOutputShape : XlaShape
  collectiveInfo : Option CollectiveInfo

structure XlaCompileOptions where
  alwaysReturnTuple : Bool
  aliasResourceUpdate : Bool
deriving DecidableEq, Repr

structure XlaDeviceCompiler where
  client : LocalClient

structure VariableInfo where
  index : Nat
deriving DecidableEq, Repr

/-- The function resolution produced by `GetBodyAndConstantsAndResources`
(an external collaborator): function body plus the constant-foldable and
resource-backed argument index sets. -/
structure FuncResolution where
  fbody : FunctionBody
  constantArgIndices : List Nat
  resourceArgIndices : List Nat

/-- Oracles for the collaborators outside this translation unit. -/
structure Env where
  resolve : Except TfError FuncResolution
  copyToHost : Tensor → Except TfError Tensor
  variableLookup : Except TfError Unit
  lockOutcome : Except TfError Unit
  lookupOrCreateCompiler : Except TfError XlaDeviceCompiler
  genTfrtTpuOptions : XlaCompilerOptions
  genStandardOptions : Bool → XlaCompilerOptions
  compileFunction : XlaCompileOptions → List XlaArgument → Except TfError CompilationResult

/-! ### `BuildExecutable` (lines 46–78) -/

/-- Build options derived from the compilation result and compiler options
(lines 56–71): replica count from the collective info when present, device
ordinal with the explicit override or the client default, the result layout,
allocator, aliasing flag, and the two debug flags. -/
def mkExecutableBuildOptions (localClient : LocalClient)
    (result : CompilationResult) (options : XlaCompilerOptions)
    (xlaEmbedIrInExecutable : Bool) : ExecutableBuildOptions :=
  { numReplicas := result.collectiveInfo.map (fun ci => ci.groupSize),
    deviceOrdinal :=
      if options.deviceOrdinal ≠ -1 then options.deviceOrdinal
      else localClient.defaultDeviceOrdinal,
    resultLayout := result.xlaOutputShape,
    deviceAllocator := options.deviceAllocator,
    aliasPassthroughParams := options.aliasPassthroughParams,
    debugOptions := { xlaDetailedLoggingAndDumping := options.detailedLogging,
                      xlaEmbedIrInExecutable := xlaEmbedIrInExecutable } }

def retCheckExecutableCountError : TfError :=
  tfRetCheckError "RET_CHECK failure: executables.size() == 1"

def BuildExecutable (localClient : LocalClient) (result : CompilationResult)
    (options : XlaCompilerOptions) (xlaEmbedIrInExecutable : Bool) :
    Except TfError Executable × List Event :=
  match localClient.compile result.xlaInputShapes
      (mkExecutableBuildOptions localClient result options xlaEmbedIrInExecutable) with
  | .error e => (.error e, [.buildExecutable xlaEmbedIrInExecutable])
  | .ok [e] => (.ok e, [.buildExecutable xlaEmbedIrInExecutable])
  | .ok _ => (.error retCheckExecutableCountError,
              [.buildExecutable xlaEmbedIrInExecutable])

/-- The C++ declaration gives `xla_embed_ir_in_executable` the default value
`false`; the two-thirds of the call sites that omit the argument go through
this wrapper. -/
def xlaEmbedIrInExecutableDefault : Bool := false

def BuildExecutableDefault (localClient : LocalClient) (result : CompilationResult)
    (options : XlaCompilerOptions) : Except TfError Executable × List Event :=
  BuildExecutable localClient result options xlaEmbedIrInExecutableDefault

/-! ### `BuildHLOString` (lines 80–134) -/

def BuildHLOString (stage : IrExportStage) (result : CompilationResult)
    (localClient : LocalClient) (options : XlaCompilerOptions) :
    Except TfError String × List Event :=
  match stage with
  | .HLO | .HLO_NO_METADATA | .HLO_SERIALIZED =>
    ((match result.computation.getProgramShape with
      | .error e => .error e
      | .ok programShape =>
        match result.computation.createFromProto programShape with
        | .error e => .error e
        | .ok newModule =>
          if stage = .HLO_SERIALIZED then .ok newModule.protoSerialized
          else
            .ok (newModule.render
               (if stage = .HLO_NO_METADATA then { printMetadata := false }
                else defaultHloPrintOptions))),
     [])
  | .OPTIMIZED_HLO | .OPTIMIZED_HLO_SERIALIZED =>
    ((match (BuildExecutableDefault localClient result options).1 with
      | .error e => .error e
      | .ok ex =>
        if stage = .OPTIMIZED_HLO_SERIALIZED then .ok ex.moduleProtoSerialized
        else .ok ex.moduleText),
     (BuildExecutableDefault localClient result options).2)
  | .OPTIMIZED_HLO_PROTO_SERIALIZED =>
    ((match (BuildExecutable localClient result options true).1 with
      | .error e => .error e
      | .ok ex => .ok ex.hloProtoSerialized),
     (BuildExecutable localClient result options true).2)
  | .OPTIMIZED_HLO_DOT =>
    ((match (BuildExecutableDefault localClient result options).1 with
      | .error e => .error e
      | .ok ex =>
        match ex.renderEntryDot with
        | .error e => .error e
        | .ok graph => .ok graph),
     (BuildExecutableDefault localClient result options).2)

/-! ### `GetCompilerIr` (lines 178–288) -/

def isTfrtTpuSupportedStage : IrExportStage → Bool
  | .HLO | .HLO_NO_METADATA | .HLO_SERIALIZED => true
  | _ => false

/-- The stage-support check (lines 194–196).  C++ `&&` short-circuits, so
`dev->tensorflow_accelerator_device_info()->stream` is dereferenced exactly
when the device type is not CPU; the pointer is not null-checked there, which
the model renders as the `none` outcome (a crash) when the accelerator device
info is null. -/
def stageSupportCheck (dev : Device) (stage : IrExportStage) : Option Bool :=
  if dev.deviceType ≠ DEVICE_CPU then
    match dev.acceleratorDeviceInfo with
    | none => none
    | some info =>
      some (decide (info.stream = none) && !(isTfrtTpuSupportedStage stage))
  else some false

/-- `absl::c_binary_search` delegates to `std::binary_search`, which on a
sorted range (as `constant_arg_indices` is documented to be) reports whether
the value occurs in it. -/
def abslCBinarySearch (l : List Nat) (v : Nat) : Bool := l.contains v

/-- The value-mode input-collection loop (lines 220–234): read each handle's
tensor; a constant-foldable input is first copied to host-resident storage
(`CopyToDevice` with a null target device) and the copy is used, any other
input's tensor is used directly. -/
def gatherInputs (env : Env) (constantArgIndices : List Nat) :
    Nat → List TensorHandle → Except TfError (List Tensor) × List Event
  | _, [] => (.ok [], [])
  | i, th :: rest =>
    match th.tensor with
    | .error e => (.error e, [])
    | .ok t =>
      if abslCBinarySearch constantArgIndices i then
        match env.copyToHost t with
        | .error e => (.error e, [.copyToHost i])
        | .ok c =>
          ((match (gatherInputs env constantArgIndices (i + 1) rest).1 with
            | .error e => .error e
            | .ok ts => .ok (c :: ts)),
           .copyToHost i :: (gatherInputs env constantArgIndices (i + 1) rest).2)
      else
        ((match (gatherInputs env constantArgIndices (i + 1) rest).1 with
          | .error e => .error e
          | .ok ts => .ok (t :: ts)),
         (gatherInputs env constantArgIndices (i + 1) rest).2)

/-- Modelled from the spec: `GetVariableInfosFromInputs` (xla_launch_util, not
among the sources) resolves each resource-backed argument index to a variable
handle; it can fail as a whole (the oracle outcome). -/
def GetVariableInfosFromInputs (env : Env) (resourceArgIndices : List Nat) :
    Except TfError (List VariableInfo) :=
  match env.variableLookup with
  | .error e => .error e
  | .ok _ => .ok (resourceArgIndices.map VariableInfo.mk)

/-- Modelled from the spec: `LockVariables` (xla_launch_util, not among the
sources) acquires each variable's lock in the (index-ascending) order of the
list, all-or-nothing: on failure, locks already acquired in this call are
released before the error surfaces, so no lock events remain. -/
def LockVariables (env : Env) (variableInfos : List VariableInfo) :
    Except TfError Unit × List Event :=
  match env.lockOutcome with
  | .error e => (.error e, [])
  | .ok _ => (.ok (), variableInfos.map (fun vi => .lockVar vi.index))

/-- Modelled from the spec: `XlaComputationLaunchContext::BuildXlaCompilerArguments`
(xla_launch_util, not among the sources) produces one descriptor per input,
"tagging kind as Parameter/Constant/Resource per the classification sets,
with shape and type taken from the runtime value, not from static metadata". -/
def BuildXlaCompilerArguments (constantArgIndices resourceArgIndices : List Nat) :
    Nat → List Tensor → List XlaArgument
  | _, [] => []
  | i, t :: rest =>
    { kind :=
        if constantArgIndices.contains i then .kConstant
        else if resourceArgIndices.contains i then .kResource
        else .kParameter,
      type := t.dtype, shape := t.shape, name := "" } ::
      BuildXlaCompilerArguments constantArgIndices resourceArgIndices (i + 1) rest

/-- Modelled from the spec: `XlaPlatformInfoFromDevice` (xla_platform_info,
not among the sources) derives the platform info — in particular its device
type — from the device descriptor. -/
structure XlaPlatformInfo where
  deviceType : String
deriving DecidableEq, Repr

def XlaPlatformInfoFromDevice (dev : Device) : XlaPlatformInfo :=
  ⟨dev.deviceType⟩

/-- The guarded stream read (lines 252–256): `stream` starts null and is set
from the accelerator device info only when that pointer is non-null. -/
def resolvedStream (dev : Device) : Option Unit :=
  match dev.acceleratorDeviceInfo with
  | some info => info.stream
  | none => none

/-- The compiler-options dispatch (lines 258–265): the TFRT-TPU
(accelerator-offload) generator is chosen exactly when the platform device
type is TPU and the stream is null; otherwise the standard generator runs
with `has_ref_vars = false`. -/
inductive CompilerOptionsChoice
  | tfrtTpuOffload
  | standard (hasRefVars : Bool)
deriving DecidableEq, Repr

def chooseCompilerOptionsPath (platformDeviceType : String)
    (stream : Option Unit) : CompilerOptionsChoice :=
  if platformDeviceType = DEVICE_TPU ∧ stream = none then .tfrtTpuOffload
  else .standard false

/-- Lines 241–288: everything after input collection and locking.  The
memory-type vectors computed at lines 217–219 are never read afterwards and
are omitted.  `valueInputs = none` is spec mode (`using_tensor_spec`). -/
def getCompilerIrTail (env : Env) (stage : IrExportStage) (dev : Device)
    (r : FuncResolution) (valueInputs : Option (List Tensor)) :
    Except TfError String × List Event :=
  match env.lookupOrCreateCompiler with
  | .error e => (.error e, [])
  | .ok xlaDeviceCompiler =>
    match (match valueInputs with
           | none => (BuildXlaCompilerArgumentFromFuncBody r.fbody).result
           | some inputs =>
             .ok (BuildXlaCompilerArguments r.constantArgIndices
                    r.resourceArgIndices 0 inputs)) with
    | .error e => (.error e, [])
    | .ok args =>
      match env.compileFunction
          { alwaysReturnTuple := false, aliasResourceUpdate := true } args with
      | .error e => (.error e, [.compile args])
      | .ok result =>
        ((BuildHLOString stage result xlaDeviceCompiler.client
            (match chooseCompilerOptionsPath
                (XlaPlatformInfoFromDevice dev).deviceType (resolvedStream dev) with
             | .tfrtTpuOffload => env.genTfrtTpuOptions
             | .standard hasRefVars => env.genStandardOptions hasRefVars)).1,
         .compile args ::
           (BuildHLOString stage result xlaDeviceCompiler.client
             (match chooseCompilerOptionsPath
                 (XlaPlatformInfoFromDevice dev).deviceType (resolvedStream dev) with
              | .tfrtTpuOffload => env.genTfrtTpuOptions
              | .standard hasRefVars => env.genStandardOptions hasRefVars)).2)

/-- Lines 200–288 — the body of `GetCompilerIr` after the stage-support
check.  In value mode the `variable_infos` vector is destroyed when the call
returns, releasing every acquired lock on the success path and on every
failure path after the locks were taken (RAII per the spec's Variable Locker
contract). -/
def getCompilerIrChecked (env : Env) (stage : IrExportStage) (dev : Device)
    (inputsHandles : List TensorHandle) : Except TfError String × List Event :=
  match env.resolve with
  | .error e => (.error e, [])
  | .ok r =>
    if inputsHandles.isEmpty then
      getCompilerIrTail env stage dev r none
    else
      match (gatherInputs env r.constantArgIndices 0 inputsHandles).1 with
      | .error e => (.error e, (gatherInputs env r.constantArgIndices 0 inputsHandles).2)
      | .ok inputs =>
        match GetVariableInfosFromInputs env r.resourceArgIndices with
        | .error e => (.error e, (gatherInputs env r.constantArgIndices 0 inputsHandles).2)
        | .ok variableInfos =>
          match (LockVariables env variableInfos).1 with
          | .error e =>
            (.error e, (gatherInputs env r.constantArgIndices 0 inputsHandles).2 ++
              (LockVariables env variableInfos).2)
          | .ok _ =>
            ((getCompilerIrTail env stage dev r (some inputs)).1,
             (gatherInputs env r.constantArgIndices 0 inputsHandles).2 ++
               (LockVariables env variableInfos).2 ++
               (getCompilerIrTail env stage dev r (some inputs)).2 ++
               variableInfos.map (fun vi => .unlockVar vi.index))

def unsupportedStageError : TfError :=
  ⟨.internal, "GetCompilerIr with requested stage is not supported on this device."⟩

/-- `GetCompilerIr` (lines 178–288).  The outer `Option` is the definedness
of the run: `none` means the unguarded dereference in the stage-support check
hit a null accelerator-device-info pointer. -/
def GetCompilerIr (env : Env) (stage : IrExportStage) (dev : Device)
    (inputsHandles : List TensorHandle) :
    Option (Except TfError String × List Event) :=
  match stageSupportCheck dev stage with
  | none => none
  | some true => some (.error unsupportedStageError, [])
  | some false => some (getCompilerIrChecked env stage dev inputsHandles)

/-! ### Trace structure of the exporter -/

/-- The four stages whose producer requires a built executable. -/
def isFromExecutableStage : IrExportStage → Bool
  | .OPTIMIZED_HLO | .OPTIMIZED_HLO_SERIALIZED
  | .OPTIMIZED_HLO_PROTO_SERIALIZED | .OPTIMIZED_HLO_DOT => true
  | _ => false

def isBuildExecutableEvent : Event → Bool
  | .buildExecutable _ => true
  | _ => false

theorem BuildExecutable_events (localClient : LocalClient)
    (result : CompilationResult) (options : XlaCompilerOptions) (b : Bool) :
    (BuildExecutable localClient result options b).2 = [.buildExecutable b] := by
  unfold BuildExecutable
  cases localClient.compile result.xlaInputShapes
      (mkExecutableBuildOptions localClient result options b) with
  | error e => rfl
  | ok execs =>
    cases execs with
    | nil => rfl
    | cons e0 t =>
      cases t with
      | nil => rfl
      | cons e1 t2 => rfl

theorem BuildHLOString_events (stage : IrExportStage)
    (result : CompilationResult) (localClient : LocalClient)
    (options : XlaCompilerOptions) :
    (BuildHLOString stage result localClient options).2 =
      if isFromExecutableStage stage = true then
        [.buildExecutable (decide (stage = .OPTIMIZED_HLO_PROTO_SERIALIZED))]
      else [] := by
  cases stage <;>
    simp only [BuildHLOString, BuildExecutableDefault, isFromExecutableStage] <;>
    first
      | rfl
      | (rw [BuildExecutable_events]; simp [xlaEmbedIrInExecutableDefault])

/-! ### Claim C5: exporter dispatch and Executable Builder invocations -/

/-- C5: the exporter's dispatch is a function of the stage alone: for every
compilation result, client and options, the three HLO stages record no
Executable Builder invocation, and each of the four OPTIMIZED stages records
exactly one Executable Builder invocation in its per-call trace. -/
theorem exporter_invokes_executable_builder_once_per_from_executable_stage
    (stage : IrExportStage) (result : CompilationResult)
    (localClient : LocalClient) (options : XlaCompilerOptions) :
    (BuildHLOString stage result localClient options).2.countP
        isBuildExecutableEvent =
      if isFromExecutableStage stage = true then 1 else 0 := by
  rw [BuildHLOString_events]
  cases hs : isFromExecutableStage stage <;>
    simp [isBuildExecutableEvent]

/-! ### Claim C6: the embed-IR-in-executable flag -/

/-- C6: the executable builder's embed-IR flag defaults to false, is
propagated verbatim into the build options, is true in the exporter's
Executable Builder invocation exactly for stage OPTIMIZED_HLO_PROTO_SERIALIZED,
and for that stage the exporter returns the serialized embedded HLO-proto
payload of the executable built with the flag set. -/
theorem embed_ir_flag_default_and_proto_serialized_payload :
    (xlaEmbedIrInExecutableDefault = false) ∧
    (∀ (localClient : LocalClient) (result : CompilationResult)
        (options : XlaCompilerOptions),
        BuildExecutableDefault localClient result options =
          BuildExecutable localClient result options false) ∧
    (∀ (localClient : LocalClient) (result : CompilationResult)
        (options : XlaCompilerOptions) (b : Bool),
        (mkExecutableBuildOptions localClient result options
            b).debugOptions.xlaEmbedIrInExecutable = b) ∧
    (∀ (stage : IrExportStage) (result : CompilationResult)
        (localClient : LocalClient) (options : XlaCompilerOptions) (b : Bool),
        Event.buildExecutable b ∈ (BuildHLOString stage result localClient options).2 →
        (b = true ↔ stage = .OPTIMIZED_HLO_PROTO_SERIALIZED)) ∧
    (∀ (result : CompilationResult) (localClient : LocalClient)
        (options : XlaCompilerOptions) (ex : Executable),
        localClient.compile result.xlaInputShapes
            (mkExecutableBuildOptions localClient result options true) = .ok [ex] →
        BuildHLOString .OPTIMIZED_HLO_PROTO_SERIALIZED result localClient options =
          (.ok ex.hloProtoSerialized, [.buildExecutable true])) := by
  refine ⟨rfl, fun _ _ _ => rfl, fun _ _ _ _ => rfl, ?_, ?_⟩
  · intro stage result localClient options b hmem
    rw [BuildHLOString_events] at hmem
    cases stage <;> simp_all
  · intro result localClient options ex hcomp
    have h1 : (BuildHLOString .OPTIMIZED_HLO_PROTO_SERIALIZED result
        localClient options).1 = .ok ex.hloProtoSerialized := by
      simp only [BuildHLOString]
      unfold BuildExecutable
      rw [hcomp]
    have h2 : (BuildHLOString .OPTIMIZED_HLO_PROTO_SERIALIZED result
        localClient options).2 = [.buildExecutable true] := by
      rw [BuildHLOString_events]
      rfl
    calc BuildHLOString .OPTIMIZED_HLO_PROTO_SERIALIZED result localClient options
        = ((BuildHLOString .OPTIMIZED_HLO_PROTO_SERIALIZED result localClient
              options).1,
           (BuildHLOString .OPTIMIZED_HLO_PROTO_SERIALIZED result localClient
              options).2) := rfl
      _ = (.ok ex.hloProtoSerialized, [.buildExecutable true]) := by rw [h1, h2]

def c6Executable : Executable :=
  { moduleText := "m", moduleProtoSerialized := "mp",
    hloProtoSerialized := "hlo-proto-with-buffer-assignment",
    renderEntryDot := .ok "dot" }

def c6Client : LocalClient :=
  { defaultDeviceOrdinal := 0,
    compile := fun _ bo =>
      if bo.debugOptions.xlaEmbedIrInExecutable then .ok [c6Executable]
      else .error ⟨.unknown, "unexpected"⟩ }

def c6Result : CompilationResult :=
  { computation := { getProgramShape := .ok ⟨0⟩,
                     createFromProto := fun _ => .ok ⟨"t", "tn", "tp"⟩ },
    xlaInputShapes := [7], xlaOutputShape := 9, collectiveInfo := none }

def c6Options : XlaCompilerOptions :=
  { deviceOrdinal := -1, deviceAllocator := none,
    aliasPassthroughParams := false, detailedLogging := false }

theorem embed_ir_flag_default_and_proto_serialized_payload_witness :
    BuildHLOString .OPTIMIZED_HLO_PROTO_SERIALIZED c6Result c6Client c6Options =
      (.ok "hlo-proto-with-buffer-assignment", [.buildExecutable true]) := by
  have h := embed_ir_flag_default_and_proto_serialized_payload.2.2.2.2
    c6Result c6Client c6Options c6Executable (by rfl)
  exact h

/-! ### Claim C7: compiler-options dispatch -/

/-- C7 counterexample: on a CPU platform (stream unbound — `none`), the code
takes the standard configuration path, not the accelerator-offload path, so
"offload exactly when no stream is bound" fails: the offload path also
requires the platform device type to be TPU. -/
theorem compiler_options_offload_not_chosen_for_streamless_cpu :
    (none : Option Unit) = none ∧
    chooseCompilerOptionsPath DEVICE_CPU none ≠ .tfrtTpuOffload := by
  decide

/-- C7 (amended): the accelerator-offload configuration path is chosen
exactly when the platform device type is TPU and no execution stream is
bound; in every other case the standard path is chosen with the
mutable-reference-inputs assumption disabled (`has_ref_vars = false`).  The
choice is a total (pure) function of the device/platform info. -/
theorem compiler_options_path_dispatch (platformDeviceType : String)
    (stream : Option Unit) :
    (chooseCompilerOptionsPath platformDeviceType stream = .tfrtTpuOffload ↔
      platformDeviceType = DEVICE_TPU ∧ stream = none) ∧
    (¬(platformDeviceType = DEVICE_TPU ∧ stream = none) →
      chooseCompilerOptionsPath platformDeviceType stream = .standard false) := by
  constructor
  · constructor
    · intro hc
      by_contra hn
      unfold chooseCompilerOptionsPath at hc
      rw [if_neg hn] at hc
      cases hc
    · intro hh
      unfold chooseCompilerOptionsPath
      rw [if_pos hh]
  · intro hn
    unfold chooseCompilerOptionsPath
    rw [if_neg hn]

theorem compiler_options_path_dispatch_witness :
    chooseCompilerOptionsPath DEVICE_TPU none = .tfrtTpuOffload ∧
    chooseCompilerOptionsPath "GPU" (some ()) = .standard false := by
  constructor
  · exact (compiler_options_path_dispatch DEVICE_TPU none).1.mpr ⟨rfl, rfl⟩
  · exact (compiler_options_path_dispatch "GPU" (some ())).2 (by decide)

/-! ### Claim C4: fail-fast on unsupported stage/device combinations -/

/-- C4: requesting any from-executable stage on a non-CPU device whose
accelerator device info carries a null stream returns the Internal
unsupported-stage error with an empty event trace — no compiler invocation
and no Executable Builder invocation happened. -/
theorem from_executable_stage_unsupported_fails_fast (env : Env)
    (stage : IrExportStage) (dev : Device) (inputsHandles : List TensorHandle)
    (hstage : isFromExecutableStage stage = true)
    (hdev : dev.deviceType ≠ DEVICE_CPU)
    (hinfo : dev.acceleratorDeviceInfo = some ⟨none⟩) :
    GetCompilerIr env stage dev inputsHandles =
      some (.error unsupportedStageError, []) ∧
    unsupportedStageError.kind = .internal ∧
    (∀ args, Event.compile args ∉ ([] : List Event)) ∧
    (∀ b, Event.buildExecutable b ∉ ([] : List Event)) := by
  have hsup : isTfrtTpuSupportedStage stage = false := by
    revert hstage
    cases stage <;> decide
  have hcheck : stageSupportCheck dev stage = some true := by
    unfold stageSupportCheck
    rw [if_pos hdev, hinfo]
    simp [hsup]
  refine ⟨?_, rfl, by simp, by simp⟩
  unfold GetCompilerIr
  rw [hcheck]

def c4Dev : Device := { deviceType := "TPU", acceleratorDeviceInfo := some ⟨none⟩ }

def idleEnv : Env :=
  { resolve := .error ⟨.notFound, "unused"⟩,
    copyToHost := fun t => .ok t,
    variableLookup := .ok (),
    lockOutcome := .ok (),
    lookupOrCreateCompiler := .error ⟨.unknown, "unused"⟩,
    genTfrtTpuOptions := c6Options,
    genStandardOptions := fun _ => c6Options,
    compileFunction := fun _ _ => .error ⟨.unknown, "unused"⟩ }

theorem from_executable_stage_unsupported_fails_fast_witness :
    GetCompilerIr idleEnv .OPTIMIZED_HLO c4Dev [] =
      some (.error unsupportedStageError, []) :=
  (from_executable_stage_unsupported_fails_fast idleEnv .OPTIMIZED_HLO c4Dev []
    (by decide) (by decide) (by decide)).1

/-! ### Claim C10: the unguarded accelerator-device-info dereference -/

/-- C10: for every non-CPU device the stage-support check dereferences the
accelerator device info without a null guard — with a null pointer the whole
call is undefined (`none`), for every stage and environment; conversely,
whenever the pointer is non-null, or the device is a CPU (the dereference is
short-circuited away), the call is defined — in particular the later guarded
stream read never faults. -/
theorem stage_check_presupposes_accelerator_info :
    (∀ (env : Env) (stage : IrExportStage) (dev : Device)
        (inputsHandles : List TensorHandle),
        dev.deviceType ≠ DEVICE_CPU → dev.acceleratorDeviceInfo = none →
        stageSupportCheck dev stage = none ∧
        GetCompilerIr env stage dev inputsHandles = none) ∧
    (∀ (env : Env) (stage : IrExportStage) (dev : Device)
        (inputsHandles : List TensorHandle),
        dev.acceleratorDeviceInfo.isSome = true ∨ dev.deviceType = DEVICE_CPU →
        (GetCompilerIr env stage dev inputsHandles).isSome = true) := by
  constructor
  · intro env stage dev inputsHandles hne hnone
    have hcheck : stageSupportCheck dev stage = none := by
      unfold stageSupportCheck
      rw [if_pos hne, hnone]
    refine ⟨hcheck, ?_⟩
    unfold GetCompilerIr
    rw [hcheck]
  · intro env stage dev inputsHandles hcase
    have hcheck : (stageSupportCheck dev stage).isSome = true := by
      unfold stageSupportCheck
      rcases hcase with hsome | hcpu
      · by_cases ht : dev.deviceType ≠ DEVICE_CPU
        · rw [if_pos ht]
          obtain ⟨info, hinfo⟩ := Option.isSome_iff_exists.mp hsome
          rw [hinfo]
          rfl
        · rw [if_neg ht]
          rfl
      · rw [if_neg (by simp [hcpu])]
        rfl
    unfold GetCompilerIr
    obtain ⟨b, hb⟩ := Option.isSome_iff_exists.mp hcheck
    rw [hb]
    cases b <;> rfl

theorem stage_check_presupposes_accelerator_info_witness :
    GetCompilerIr idleEnv .HLO
        { deviceType := "GPU", acceleratorDeviceInfo := none } [] = none ∧
    (GetCompilerIr idleEnv .HLO
        { deviceType := "CPU", acceleratorDeviceInfo := none } []).isSome = true := by
  constructor
  · exact (stage_check_presupposes_accelerator_info.1 idleEnv .HLO
      { deviceType := "GPU", acceleratorDeviceInfo := none } []
      (by decide) rfl).2
  · exact stage_check_presupposes_accelerator_info.2 idleEnv .HLO
      { deviceType := "CPU", acceleratorDeviceInfo := none } [] (Or.inr rfl)

/-! ### Characterization of the value-mode input collection -/

def isCopyEvent : Event → Bool
  | .copyToHost _ => true
  | _ => false

def isSyncEvent : Event → Bool
  | .lockVar _ => true
  | .unlockVar _ => true
  | _ => false

theorem gatherInputs_ok_length (env : Env) (cst : List Nat) :
    ∀ (hs : List TensorHandle) (i : Nat) (ts : List Tensor),
      (gatherInputs env cst i hs).1 = .ok ts → ts.length = hs.length := by
  intro hs
  induction hs with
  | nil =>
    intro i ts h
    cases h
    rfl
  | cons th rest ih =>
    intro i ts h
    unfold gatherInputs at h
    split at h
    · cases h
    · split at h
      · split at h
        · cases h
        · dsimp only at h
          split at h
          · cases h
          · cases h
            simp only [List.length_cons]
            rw [ih (i + 1) _ (by assumption)]
      · dsimp only at h
        split at h
        · cases h
        · cases h
          simp only [List.length_cons]
          rw [ih (i + 1) _ (by assumption)]

theorem gatherInputs_ok_getD (env : Env) (cst : List Nat) :
    ∀ (hs : List TensorHandle) (i : Nat) (ts : List Tensor),
      (gatherInputs env cst i hs).1 = .ok ts →
      ∀ j, j < hs.length →
        ∃ t, (hs.getD j default).tensor = .ok t ∧
          (if abslCBinarySearch cst (i + j) = true then
             env.copyToHost t = .ok (ts.getD j default)
           else ts.getD j default = t) := by
  intro hs
  induction hs with
  | nil =>
    intro i ts _ j hj
    simp at hj
  | cons th rest ih =>
    intro i ts h j hj
    unfold gatherInputs at h
    split at h
    · cases h
    · next t hth =>
      split at h
      · next hb =>
        split at h
        · cases h
        · next c hcp =>
          dsimp only at h
          split at h
          · cases h
          · next ts0 hrec =>
            cases h
            cases j with
            | zero =>
              refine ⟨t, hth, ?_⟩
              rw [Nat.add_zero, if_pos hb, hcp]
              rfl
            | succ k =>
              have hk : k < rest.length := by
                simp only [List.length_cons] at hj
                omega
              have hrec2 := ih (i + 1) ts0 hrec k hk
              have harith : i + 1 + k = i + (k + 1) := by omega
              rw [harith] at hrec2
              simpa only [List.getD_cons_succ] using hrec2
      · next hb =>
        dsimp only at h
        split at h
        · cases h
        · next ts0 hrec =>
          cases h
          cases j with
          | zero =>
            refine ⟨t, hth, ?_⟩
            rw [Nat.add_zero, if_neg hb]
            rfl
          | succ k =>
            have hk : k < rest.length := by
              simp only [List.length_cons] at hj
              omega
            have hrec2 := ih (i + 1) ts0 hrec k hk
            have harith : i + 1 + k = i + (k + 1) := by omega
            rw [harith] at hrec2
            simpa only [List.getD_cons_succ] using hrec2

theorem gatherInputs_only_copy_events (env : Env) (cst : List Nat) :
    ∀ (hs : List TensorHandle) (i : Nat),
      (gatherInputs env cst i hs).2.all isCopyEvent = true := by
  intro hs
  induction hs with
  | nil => intro i; rfl
  | cons th rest ih =>
    intro i
    unfold gatherInputs
    split
    · rfl
    · split
      · split
        · rfl
        · dsimp only
          simp only [List.all_cons, ih (i + 1)]
          rfl
      · dsimp only
        exact ih (i + 1)

/-! ### Characterization of the spec-modelled descriptor builder -/

theorem buildXlaCompilerArguments_length (cst res : List Nat) :
    ∀ (ts : List Tensor) (i : Nat),
      (BuildXlaCompilerArguments cst res i ts).length = ts.length := by
  intro ts
  induction ts with
  | nil => intro i; rfl
  | cons t rest ih =>
    intro i
    simp only [BuildXlaCompilerArguments, List.length_cons, ih (i + 1)]

theorem buildXlaCompilerArguments_getD (cst res : List Nat) :
    ∀ (ts : List Tensor) (i j : Nat), j < ts.length →
      (BuildXlaCompilerArguments cst res i ts).getD j default =
        { kind :=
            if cst.contains (i + j) then .kConstant
            else if res.contains (i + j) then .kResource
            else .kParameter,
          type := (ts.getD j default).dtype,
          shape := (ts.getD j default).shape,
          name := "" } := by
  intro ts
  induction ts with
  | nil =>
    intro i j hj
    simp at hj
  | cons t rest ih =>
    intro i j hj
    cases j with
    | zero => rfl
    | succ k =>
      simp only [BuildXlaCompilerArguments, List.getD_cons_succ]
      rw [ih (i + 1) k (by simpa using hj)]
      have h1 : i + (k + 1) = i + 1 + k := by omega
      rw [h1]

/-! ### The tail of the call emits no lock or unlock events -/

theorem getCompilerIrTail_no_sync_events (env : Env) (stage : IrExportStage)
    (dev : Device) (r : FuncResolution) (valueInputs : Option (List Tensor)) :
    (getCompilerIrTail env stage dev r valueInputs).2.all
        (fun e => !(isSyncEvent e)) = true := by
  unfold getCompilerIrTail
  split
  · rfl
  · split
    · rfl
    · split
      · rfl
      · simp only [List.all_cons, BuildHLOString_events]
        split <;> rfl

theorem getCompilerIrTail_value_compile_event (env : Env) (stage : IrExportStage)
    (dev : Device) (r : FuncResolution) (inputs : List Tensor)
    (xdc : XlaDeviceCompiler)
    (hcompiler : env.lookupOrCreateCompiler = .ok xdc) :
    Event.compile (BuildXlaCompilerArguments r.constantArgIndices
        r.resourceArgIndices 0 inputs) ∈
      (getCompilerIrTail env stage dev r (some inputs)).2 := by
  unfold getCompilerIrTail
  rw [hcompiler]
  dsimp only
  cases env.compileFunction { alwaysReturnTuple := false, aliasResourceUpdate := true }
      (BuildXlaCompilerArguments r.constantArgIndices r.resourceArgIndices 0 inputs) with
  | error e => exact List.mem_singleton_self _
  | ok result => exact List.mem_cons_self _ _

/-! ### The value-mode run of `GetCompilerIr` -/

theorem getCompilerIr_value_mode_run (env : Env) (stage : IrExportStage)
    (dev : Device) (inputsHandles : List TensorHandle) (r : FuncResolution)
    (inputs : List Tensor)
    (hcheck : stageSupportCheck dev stage = some false)
    (hres : env.resolve = .ok r)
    (hne : inputsHandles ≠ [])
    (hgather : (gatherInputs env r.constantArgIndices 0 inputsHandles).1 = .ok inputs)
    (hvars : env.variableLookup = .ok ())
    (hlock : env.lockOutcome = .ok ()) :
    GetCompilerIr env stage dev inputsHandles =
      some ((getCompilerIrTail env stage dev r (some inputs)).1,
        (gatherInputs env r.constantArgIndices 0 inputsHandles).2 ++
        r.resourceArgIndices.map Event.lockVar ++
        (getCompilerIrTail env stage dev r (some inputs)).2 ++
        r.resourceArgIndices.map Event.unlockVar) := by
  unfold GetCompilerIr
  rw [hcheck]
  unfold getCompilerIrChecked
  rw [hres]
  dsimp only
  have hemp : inputsHandles.isEmpty = false := by
    cases inputsHandles
    · exact absurd rfl hne
    · rfl
  rw [hemp]
  rw [if_neg (show ¬((false : Bool) = true) by decide)]
  rw [hgather]
  dsimp only
  unfold GetVariableInfosFromInputs
  rw [hvars]
  dsimp only
  unfold LockVariables
  rw [hlock]
  dsimp only
  rw [List.map_map, List.map_map]
  rfl

/-! ### Claim C8: value-mode copies and descriptor-kind classification -/

/-- C8: in value mode, every input whose index is in the constant-foldable
set is copied to host-resident storage and the copy is what the call uses;
every other input's original tensor is used directly; and the compiler
invocation recorded in the trace receives descriptors whose kinds match the
resolved constant/resource index sets exactly, for every partition. -/
theorem value_mode_copies_constants_and_kinds_match_classification
    (env : Env) (stage : IrExportStage) (dev : Device)
    (inputsHandles : List TensorHandle) (r : FuncResolution)
    (inputs : List Tensor) (xdc : XlaDeviceCompiler)
    (hcheck : stageSupportCheck dev stage = some false)
    (hres : env.resolve = .ok r)
    (hne : inputsHandles ≠ [])
    (hgather : (gatherInputs env r.constantArgIndices 0 inputsHandles).1 = .ok inputs)
    (hvars : env.variableLookup = .ok ())
    (hlock : env.lockOutcome = .ok ())
    (hcompiler : env.lookupOrCreateCompiler = .ok xdc) :
    ∃ res tr,
      GetCompilerIr env stage dev inputsHandles = some (res, tr) ∧
      Event.compile (BuildXlaCompilerArguments r.constantArgIndices
        r.resourceArgIndices 0 inputs) ∈ tr ∧
      inputs.length = inputsHandles.length ∧
      (∀ j, j < inputsHandles.length →
        ∃ t, (inputsHandles.getD j default).tensor = .ok t ∧
          (if abslCBinarySearch r.constantArgIndices j = true then
             env.copyToHost t = .ok (inputs.getD j default)
           else inputs.getD j default = t)) ∧
      (∀ j, j < inputs.length →
        (BuildXlaCompilerArguments r.constantArgIndices r.resourceArgIndices
            0 inputs).getD j default =
          { kind :=
              if r.constantArgIndices.contains j then .kConstant
              else if r.resourceArgIndices.contains j then .kResource
              else .kParameter,
            type := (inputs.getD j default).dtype,
            shape := (inputs.getD j default).shape,
            name := "" }) := by
  refine ⟨(getCompilerIrTail env stage dev r (some inputs)).1,
    _,
    getCompilerIr_value_mode_run env stage dev inputsHandles r inputs
      hcheck hres hne hgather hvars hlock,
    ?_, ?_, ?_, ?_⟩
  · have hmem := getCompilerIrTail_value_compile_event env stage dev r inputs
      xdc hcompiler
    simp only [List.mem_append]
    exact Or.inl (Or.inr hmem)
  · exact gatherInputs_ok_length env r.constantArgIndices inputsHandles 0 inputs
      hgather
  · intro j hj
    have := gatherInputs_ok_getD env r.constantArgIndices inputsHandles 0 inputs
      hgather j hj
    simpa using this
  · intro j hj
    have := buildXlaCompilerArguments_getD r.constantArgIndices
      r.resourceArgIndices inputs 0 j hj
    simpa using this

/-! ### Claim C9: lock ordering, holding, and unconditional release -/

/-- C9: in value mode the per-call trace decomposes as copies, then the lock
events of all resource-backed indices in ascending index order, then a middle
segment containing no lock or unlock event (the compiler invocation, when it
happens, is in this segment, so locks are held through compilation), then the
matching unlock events.  The decomposition makes no assumption about the
post-locking oracles, so the unlock segment is present on the success path
and on every post-locking failure path alike. -/
theorem value_mode_locks_ascending_held_and_released (env : Env)
    (stage : IrExportStage) (dev : Device) (inputsHandles : List TensorHandle)
    (r : FuncResolution) (inputs : List Tensor)
    (hcheck : stageSupportCheck dev stage = some false)
    (hres : env.resolve = .ok r)
    (hsorted : List.Sorted (· < ·) r.resourceArgIndices)
    (hne : inputsHandles ≠ [])
    (hgather : (gatherInputs env r.constantArgIndices 0 inputsHandles).1 = .ok inputs)
    (hvars : env.variableLookup = .ok ())
    (hlock : env.lockOutcome = .ok ()) :
    ∃ res pre mid,
      GetCompilerIr env stage dev inputsHandles =
        some (res, pre ++ r.resourceArgIndices.map Event.lockVar ++ mid ++
          r.resourceArgIndices.map Event.unlockVar) ∧
      pre.all isCopyEvent = true ∧
      mid.all (fun e => !(isSyncEvent e)) = true ∧
      List.Sorted (· < ·) r.resourceArgIndices := by
  exact ⟨(getCompilerIrTail env stage dev r (some inputs)).1,
    (gatherInputs env r.constantArgIndices 0 inputsHandles).2,
    (getCompilerIrTail env stage dev r (some inputs)).2,
    getCompilerIr_value_mode_run env stage dev inputsHandles r inputs
      hcheck hres hne hgather hvars hlock,
    gatherInputs_only_copy_events env r.constantArgIndices inputsHandles 0,
    getCompilerIrTail_no_sync_events env stage dev r (some inputs),
    hsorted⟩

/-! ### Concrete value-mode scenario for the witnesses -/

def vmExec : Executable :=
  { moduleText := "vm-text", moduleProtoSerialized := "vm-proto",
    hloProtoSerialized := "vm-hlo-proto", renderEntryDot := .ok "vm-dot" }

def vmClient : LocalClient :=
  { defaultDeviceOrdinal := 0, compile := fun _ _ => .ok [vmExec] }

def vmOptions : XlaCompilerOptions :=
  { deviceOrdinal := -1, deviceAllocator := none,
    aliasPassthroughParams := false, detailedLogging := false }

def vmResolution : FuncResolution :=
  { fbody := { fdef := { signature := { inputArg := [] }, argAttr := [] } },
    constantArgIndices := [0], resourceArgIndices := [1, 2] }

def vmTensor (n : Nat) : Tensor := { dtype := n, shape := ⟨[Int.ofNat n]⟩ }

def vmHandles : List TensorHandle :=
  [⟨.ok (vmTensor 0)⟩, ⟨.ok (vmTensor 1)⟩, ⟨.ok (vmTensor 2)⟩]

/-- An environment whose compiler invocation fails, exhibiting the unlock
events on a failure path. -/
def vmEnv : Env :=
  { resolve := .ok vmResolution,
    copyToHost := fun t => .ok { t with dtype := t.dtype + 100 },
    variableLookup := .ok (),
    lockOutcome := .ok (),
    lookupOrCreateCompiler := .ok ⟨vmClient⟩,
    genTfrtTpuOptions := vmOptions,
    genStandardOptions := fun _ => vmOptions,
    compileFunction := fun _ _ => .error ⟨.unknown, "compilation failed"⟩ }

def vmDev : Device := { deviceType := "CPU", acceleratorDeviceInfo := none }

theorem value_mode_copies_constants_and_kinds_match_classification_witness :
    ∃ res tr,
      GetCompilerIr vmEnv .HLO vmDev vmHandles = some (res, tr) ∧
      Event.compile (BuildXlaCompilerArguments [0] [1, 2] 0
        [{ dtype := 100, shape := ⟨[0]⟩ }, vmTensor 1, vmTensor 2]) ∈ tr := by
  obtain ⟨res, tr, h1, h2, _⟩ :=
    value_mode_copies_constants_and_kinds_match_classification vmEnv .HLO vmDev
      vmHandles vmResolution
      [{ dtype := 100, shape := ⟨[0]⟩ }, vmTensor 1, vmTensor 2] ⟨vmClient⟩
      rfl rfl (by decide) (by decide) rfl rfl rfl
  exact ⟨res, tr, h1, h2⟩

theorem value_mode_locks_ascending_held_and_released_witness :
    ∃ res pre mid,
      GetCompilerIr vmEnv .HLO vmDev vmHandles =
        some (res, pre ++ [Event.lockVar 1, Event.lockVar 2] ++ mid ++
          [Event.unlockVar 1, Event.unlockVar 2]) ∧
      mid.all (fun e => !(isSyncEvent e)) = true := by
  obtain ⟨res, pre, mid, h1, _, h3, _⟩ :=
    value_mode_locks_ascending_held_and_released vmEnv .HLO vmDev vmHandles
      vmResolution [{ dtype := 100, shape := ⟨[0]⟩ }, vmTensor 1, vmTensor 2]
      rfl rfl (by decide) (by decide) (by decide) rfl rfl
  exact ⟨res, pre, mid, h1, h3⟩

end TF
